import Mathlib

/-!
Verification of the reflex event-processing pipeline (`src/reflex/app.py`)
against its natural-language specification.

The embedding follows the source: `App.preprocess`, `App.postprocess`,
`process`, `upload` / `upload_file` and `App.get_load_events` are translated
from `src/reflex/app.py`.  Parts of the repository that the pipeline calls
but whose source file (`reflex/state.py`, `reflex/constants.py`,
`reflex/utils/format.py`) is not under `src/` are modelled from the spec and
are marked as such in their doc comments.

Python dictionaries are modelled as association lists with lookup-based
equality (`dictBEq`), and `dict.update` as `dictUpdate`; exceptions are
modelled with `Except String` and the `Outcome.raised` terminal status of a
processing trace.
-/

namespace Reflex

/-- An uploaded file, as seen by the upload endpoint: only its (mutable)
filename matters to the pipeline. -/
structure UploadFile where
  filename : String
deriving DecidableEq, Repr

/-- Values stored in the Python dicts the pipeline manipulates
(router data, payloads, headers). -/
inductive Value where
  | str (s : String)
  | int (n : Int)
  | bool (b : Bool)
  | strMap (m : List (String × String))
  | files (fs : List UploadFile)
deriving DecidableEq, Repr

/-- A Python dict with string keys, modelled as an association list. -/
abbrev Dict := List (String × Value)

/-- Dict lookup: the value bound to the first occurrence of `k`. -/
def dictGet (d : Dict) (k : String) : Option Value :=
  (d.find? (fun p => p.1 = k)).map Prod.snd

/-- Setting one key of a dict: replace in place if present, else append
(Python dicts keep insertion order). -/
def dictSet (d : Dict) (k : String) (v : Value) : Dict :=
  if d.any (fun p => p.1 = k) then
    d.map (fun p => if p.1 = k then (k, v) else p)
  else
    d ++ [(k, v)]

/-- Python `d.update(m)`: fold `dictSet` over the entries of `m`. -/
def dictUpdate (d m : Dict) : Dict :=
  m.foldl (fun acc p => dictSet acc p.1 p.2) d

/-- Python `==` on dicts: the two dicts bind every key to the same value
(order-insensitive). -/
def dictBEq (d1 d2 : Dict) : Bool :=
  d1.all (fun p => dictGet d1 p.1 == dictGet d2 p.1) &&
    d2.all (fun p => dictGet d1 p.1 == dictGet d2 p.1)

/-- An event (`reflex.event.Event` as described by the data model in the
spec): token, dot-qualified handler name, payload and router metadata. -/
structure Event where
  token : String
  name : String
  payload : Dict
  router_data : Dict
deriving DecidableEq, Repr

/-- A state update: a delta, follow-up events to drain, and the final flag. -/
structure StateUpdate where
  delta : Dict
  events : List Event
  final : Bool
deriving DecidableEq, Repr

/-- A session state instance, reduced to the parts the claims touch:
its router metadata, its plain vars, and the names of the computed
fields currently marked dirty. -/
structure State where
  router_data : Dict
  vars : Dict
  dirty_computed : List String
deriving DecidableEq, Repr

/-- A middleware: pre and post hooks.  A hook may raise (`Except.error`),
return no update (`Except.ok none`) or return an update. -/
structure Middleware where
  pre : State → Event → Except String (Option StateUpdate)
  post : State → Event → StateUpdate → Except String (Option StateUpdate)

/-- An event handler: transforms the state given the event payload and
produces a `StateUpdate` (possibly carrying follow-up events), or raises. -/
abbrev Handler := State → Dict → Except String (State × StateUpdate)

/-- Modelled from the spec: the per-state-class handler registry and the
collaborator interfaces of the pipeline, plus the app data `process`
reads (`App.middleware`, the state class's defaults, the set of computed
fields depending on router metadata, and the upload-parameter lookup the
upload endpoint performs by signature inspection). -/
structure AppModel where
  middleware : List Middleware
  handlers : String → Option Handler
  defaults : State
  routerDeps : List String
  format_query_params : Dict → List (String × String)
  handlerUploadParam : String → Option String

/-- The session-keyed state store (`StateManager.states`). -/
structure StateManager where
  states : List (String × State)
deriving DecidableEq, Repr

/-- Modelled from the spec: `StateManager.get_state` (reflex/state.py is not
under src/) — "returns the existing session root if present, else constructs
one with all fields at declared defaults and registers it under token;
never returns null". -/
def StateManager.get_state (default : State) (mgr : StateManager)
    (token : String) : State × StateManager :=
  match mgr.states.find? (fun p => p.1 = token) with
  | some p => (p.2, mgr)
  | none => (default, ⟨mgr.states ++ [(token, default)]⟩)

/-- Modelled from the spec: `StateManager.set_state` (reflex/state.py is not
under src/) — "replaces/stores the session root; must be safe to call
repeatedly with the same token". -/
def StateManager.set_state (mgr : StateManager) (token : String)
    (s : State) : StateManager :=
  ⟨if mgr.states.any (fun p => p.1 = token) then
      mgr.states.map (fun p => if p.1 = token then (token, s) else p)
    else
      mgr.states ++ [(token, s)]⟩

/-- Modelled from the spec: assignment to `State.router_data`
(reflex/state.py is not under src/) "will recurse into substates and force
recalculation of dependent ComputedVar" — modelled as storing the new
router data and marking every router-dependent computed field dirty. -/
def assignRouterData (deps : List String) (s : State) (rd : Dict) : State :=
  { s with
    router_data := rd,
    dirty_computed :=
      s.dirty_computed ++ deps.filter (fun d => ¬ s.dirty_computed.contains d) }

/-- Modelled from the spec: `constants.RouteVar.QUERY` (reflex/constants.py
is not under src/); the string values of the RouteVar keys are taken from
the router_data dicts exercised in src/tests/test_app.py. -/
def RouteVar.QUERY : String := "query"

/-- Modelled from the spec: `constants.RouteVar.CLIENT_TOKEN`. -/
def RouteVar.CLIENT_TOKEN : String := "token"

/-- Modelled from the spec: `constants.RouteVar.SESSION_ID`. -/
def RouteVar.SESSION_ID : String := "sid"

/-- Modelled from the spec: `constants.RouteVar.HEADERS`. -/
def RouteVar.HEADERS : String := "headers"

/-- Modelled from the spec: `constants.RouteVar.CLIENT_IP`. -/
def RouteVar.CLIENT_IP : String := "ip"

/-- Modelled from the spec: `State.get_sid` (reflex/state.py is not under
src/) — reads the session id out of the state's router metadata. -/
def State.get_sid (s : State) : String :=
  match dictGet s.router_data RouteVar.SESSION_ID with
  | some (.str sid) => sid
  | _ => ""

/-- Terminal status of one processing pass: normal completion, exhaustion of
the recursion fuel of the model, or a propagated exception. -/
inductive Outcome where
  | ok
  | fuelOut
  | raised (msg : String)
deriving DecidableEq, Repr

/-- One observable action of the pipeline, in order: an update yielded on the
normal response channel, an update emitted out-of-band to a socket session,
or a call to `StateManager.set_state`. -/
inductive TraceItem where
  | yielded (u : StateUpdate)
  | emit (sid : String) (u : StateUpdate)
  | set_state (token : String)
deriving DecidableEq, Repr

/-- `App.preprocess` (src/reflex/app.py): run each middleware's pre hook in
registration order; the first non-`None` result is returned and the
remaining hooks are not run; a raising hook propagates. -/
def preprocess (mws : List Middleware) (state : State) (event : Event) :
    Except String (Option StateUpdate) :=
  match mws with
  | [] => .ok none
  | m :: ms =>
    match m.pre state event with
    | .error msg => .error msg
    | .ok (some out) => .ok (some out)
    | .ok none => preprocess ms state event

/-- `App.postprocess` (src/reflex/app.py): run each middleware's post hook in
registration order; the first non-`None` result replaces the update; if
every hook returns `None` the update is returned unchanged. -/
def postprocess (mws : List Middleware) (state : State) (event : Event)
    (update : StateUpdate) : Except String StateUpdate :=
  match mws with
  | [] => .ok update
  | m :: ms =>
    match m.post state event update with
    | .error msg => .error msg
    | .ok (some out) => .ok out
    | .ok none => postprocess ms state event update

/-- Modelled from the spec: the `RoutingError` message raised when an event
name resolves to no known handler path (handler resolution lives in
reflex/state.py, which is not under src/). -/
def routingError (name : String) : String :=
  "RoutingError: " ++ name

/-- Modelled from the spec: `State._process` (reflex/state.py is not under
src/) — "resolve event.name to a bound handler ...; the processor must drain
[the follow-up events] depth-first, immediately after the update that
produced them, ... yielding one StateUpdate per handler invocation in the
chain, in dispatch order" — combined with the loop body of `process`
(src/reflex/app.py lines 689-694) that postprocesses each yielded update
with the original event before yielding it.  Recursion is fuelled; the
result is the yielded updates in order, the final state, and the outcome
(errors from a handler or a post hook stop the chain and propagate, keeping
the updates already yielded). -/
def processLoop (app : AppModel) :
    Nat → State → List Event → Event → List StateUpdate × State × Outcome
  | _, state, [], _ => ([], state, .ok)
  | 0, state, _ :: _, _ => ([], state, .fuelOut)
  | fuel + 1, state, e :: rest, orig =>
    match app.handlers e.name with
    | none => ([], state, .raised (routingError e.name))
    | some h =>
      match h state e.payload with
      | .error msg => ([], state, .raised msg)
      | .ok (state', u) =>
        match postprocess app.middleware state' orig u with
        | .error msg => ([], state', .raised msg)
        | .ok u' =>
          let r := processLoop app fuel state' (u.events ++ rest) orig
          (u' :: r.1, r.2.1, r.2.2)

/-- The router metadata built by `process` (src/reflex/app.py lines
663-672): the event's router_data updated in place with the formatted query
params, the client token, the session id, the headers and the client IP. -/
def buildRouterData (app : AppModel) (event : Event) (sid : String)
    (headers : List (String × String)) (client_ip : String) : Dict :=
  dictUpdate event.router_data
    [(RouteVar.QUERY, Value.strMap (app.format_query_params event.router_data)),
     (RouteVar.CLIENT_TOKEN, Value.str event.token),
     (RouteVar.SESSION_ID, Value.str sid),
     (RouteVar.HEADERS, Value.strMap headers),
     (RouteVar.CLIENT_IP, Value.str client_ip)]

/-- The event as it stands after the metadata merge of `process`: Python's
`router_data.update(...)` mutates `event.router_data` in place, so the
event object now carries the merged router metadata. -/
def mergedEvent (app : AppModel) (event : Event) (sid : String)
    (headers : List (String × String)) (client_ip : String) : Event :=
  { event with router_data := buildRouterData app event sid headers client_ip }

/-- The metadata-merge step of `process` (src/reflex/app.py lines 673-677):
re-assign `state.router_data` only when the merged router metadata differs
from the state's current router metadata. -/
def mergedState (app : AppModel) (state : State) (router_data : Dict) :
    State :=
  if dictBEq state.router_data router_data then state
  else assignRouterData app.routerDeps state router_data

/-- The state `process` hands to the middleware and the handler: the session
state fetched for the event's token, after the metadata merge. -/
def processState (app : AppModel) (event : Event) (sid : String)
    (headers : List (String × String)) (client_ip : String)
    (mgr : StateManager) : State :=
  mergedState app (StateManager.get_state app.defaults mgr event.token).1
    (buildRouterData app event sid headers client_ip)

/-- The observable result of one `process` call: its ordered trace of
yields and set_state calls, its terminal status, the state store after the
call, and the event object after the call (its router_data was mutated in
place by the metadata merge). -/
structure ProcessOut where
  trace : List TraceItem
  outcome : Outcome
  mgr : StateManager
  event : Event
deriving Repr

/-- `process` (src/reflex/app.py lines 644-697): fetch the session state,
merge the request metadata into it, run pre-middleware — a non-`None`
pre-middleware result short-circuits dispatch and is yielded directly —
otherwise drain the handler chain, postprocessing and yielding each update;
finally persist the state once with `set_state`.  An exception anywhere
propagates: the trace stops and `set_state` is not reached. -/
def process (app : AppModel) (fuel : Nat) (event : Event) (sid : String)
    (headers : List (String × String)) (client_ip : String)
    (mgr : StateManager) : ProcessOut :=
  match preprocess app.middleware
      (processState app event sid headers client_ip mgr)
      (mergedEvent app event sid headers client_ip) with
  | .error msg =>
    ⟨[], .raised msg, (StateManager.get_state app.defaults mgr event.token).2,
      mergedEvent app event sid headers client_ip⟩
  | .ok (some update) =>
    ⟨[.yielded update, .set_state event.token], .ok,
      ((StateManager.get_state app.defaults mgr event.token).2).set_state
        event.token (processState app event sid headers client_ip mgr),
      mergedEvent app event sid headers client_ip⟩
  | .ok none =>
    match processLoop app fuel
        (processState app event sid headers client_ip mgr)
        [mergedEvent app event sid headers client_ip]
        (mergedEvent app event sid headers client_ip) with
    | (us, sfin, .ok) =>
      ⟨us.map .yielded ++ [.set_state event.token], .ok,
        ((StateManager.get_state app.defaults mgr event.token).2).set_state
          event.token sfin,
        mergedEvent app event sid headers client_ip⟩
    | (us, _, out) =>
      ⟨us.map .yielded, out,
        (StateManager.get_state app.defaults mgr event.token).2,
        mergedEvent app event sid headers client_ip⟩

/-- The ValueError message of `upload_file` (src/reflex/app.py lines
756-759) when the resolved handler has no parameter annotated as
List[rx.UploadFile]. -/
def uploadParamError (handler : String) : String :=
  "`" ++ handler ++
    "` handler should have a parameter annotated as List[rx.UploadFile]"

/-- The observable result of one call to the upload endpoint. -/
structure UploadOut where
  trace : List TraceItem
  outcome : Outcome
  mgr : StateManager
  event : Option Event
deriving Repr

/-- Python's `str.split(":")` on a single-character separator, translated
structurally: split the character list at every occurrence of `sep`; the
empty string splits to `[""]` and a string without the separator splits to
itself, as in Python. -/
def splitOnCharAux (sep : Char) : List Char → List Char → List String
  | [], acc => [String.mk acc.reverse]
  | c :: cs, acc =>
    if c = sep then String.mk acc.reverse :: splitOnCharAux sep cs []
    else splitOnCharAux sep cs (c :: acc)

/-- Python `s.split(sep)` for a one-character separator. -/
def splitOnChar (sep : Char) (s : String) : List String :=
  splitOnCharAux sep s.data []

/-- The event synthesized by `upload_file`: the parsed token and handler
path, and a payload binding the handler's file-sequence parameter to the
files, each renamed in place to its final colon-separated segment. -/
def uploadEvent (param token handler : String)
    (files : List UploadFile) : Event :=
  ⟨token, handler,
    [(param, .files (files.map
      (fun f => ⟨(splitOnChar ':' f.filename).getLast?.getD f.filename⟩)))],
    []⟩

/-- `upload_file` (src/reflex/app.py lines 719-776): parse the token and the
dot-qualified handler path from the first two colon-separated segments of
the first filename; replace every file's name with its final
colon-separated segment; fetch the session state; look for a handler
parameter annotated as a list of UploadFile, raising a ValueError naming
the handler when there is none; synthesize the event and drain it through
the same chained dispatch, emitting each postprocessed update out-of-band
to the originating session; finally persist the state once. -/
def upload_file (app : AppModel) (fuel : Nat) (files : List UploadFile)
    (mgr : StateManager) : UploadOut :=
  match files with
  | [] => ⟨[], .raised "IndexError: list index out of range", mgr, none⟩
  | f0 :: _ =>
    match splitOnChar ':' f0.filename with
    | token :: handler :: _ =>
      match app.handlerUploadParam handler with
      | none =>
        ⟨[], .raised (uploadParamError handler),
          (StateManager.get_state app.defaults mgr token).2, none⟩
      | some param =>
        match processLoop app fuel
            (StateManager.get_state app.defaults mgr token).1
            [uploadEvent param token handler files]
            (uploadEvent param token handler files) with
        | (us, sfin, .ok) =>
          ⟨us.map
              (.emit (StateManager.get_state app.defaults mgr token).1.get_sid)
              ++ [.set_state token], .ok,
            ((StateManager.get_state app.defaults mgr token).2).set_state
              token sfin,
            some (uploadEvent param token handler files)⟩
        | (us, _, out) =>
          ⟨us.map
              (.emit (StateManager.get_state app.defaults mgr token).1.get_sid),
            out, (StateManager.get_state app.defaults mgr token).2,
            some (uploadEvent param token handler files)⟩
    | _ =>
      ⟨[], .raised "ValueError: not enough values to unpack", mgr, none⟩

/-- The index route name; `src/reflex/app.py` line 434 identifies the empty
route with the literal "index" (`constants.INDEX_ROUTE`, whose defining
file is not under src/). -/
def INDEX_ROUTE : String := "index"

/-- `App.get_load_events` (src/reflex/app.py lines 404-416): strip leading
slashes, treat the empty route as the index route, and look the route up in
the load-events table, defaulting to the empty list. -/
def get_load_events (load_events : List (String × List String))
    (route : String) : List String :=
  match load_events.find? (fun p =>
      p.1 = (if String.mk (route.data.dropWhile (fun c => c = '/')) = ""
             then INDEX_ROUTE
             else String.mk (route.data.dropWhile (fun c => c = '/')))) with
  | some p => p.2
  | none => []

/-- A flat handler chain: every event in the queue resolves to a handler
that succeeds with no further follow-up events, and every produced update is
postprocessed without error; `us` collects the postprocessed updates in
dispatch order and `sfin` is the state after the whole chain. -/
inductive FlatChain (app : AppModel) (orig : Event) :
    State → List Event → List StateUpdate → State → Prop
  | nil (s : State) : FlatChain app orig s [] [] s
  | cons (s : State) (e : Event) (rest : List Event) (h : Handler)
      (s' : State) (u u' : StateUpdate) (us : List StateUpdate) (sfin : State)
      (hh : app.handlers e.name = some h)
      (hrun : h s e.payload = Except.ok (s', u))
      (hflat : u.events = [])
      (hpost : postprocess app.middleware s' orig u = Except.ok u')
      (hrest : FlatChain app orig s' rest us sfin) :
      FlatChain app orig s (e :: rest) (u' :: us) sfin

theorem FlatChain.length_eq {app : AppModel} {orig : Event} {s : State}
    {es : List Event} {us : List StateUpdate} {sfin : State}
    (hc : FlatChain app orig s es us sfin) : us.length = es.length := by
  induction hc with
  | nil s => rfl
  | cons s e rest h s' u u' us sfin hh hrun hflat hpost hrest ih =>
    simp [ih]

theorem processLoop_flat {app : AppModel} {orig : Event} {s : State}
    {es : List Event} {us : List StateUpdate} {sfin : State}
    (hc : FlatChain app orig s es us sfin) :
    ∀ (fuel : Nat) (tail : List Event),
      processLoop app (es.length + fuel) s (es ++ tail) orig =
        (us ++ (processLoop app fuel sfin tail orig).1,
         (processLoop app fuel sfin tail orig).2.1,
         (processLoop app fuel sfin tail orig).2.2) := by
  induction hc with
  | nil s =>
    intro fuel tail
    simp
  | cons s e rest h s' u u' us sfin hh hrun hflat hpost hrest ih =>
    intro fuel tail
    have hlen : (e :: rest).length + fuel = (rest.length + fuel) + 1 := by
      simp [List.length_cons]
      omega
    rw [hlen]
    simp only [List.cons_append, processLoop, hh, hrun, hpost, hflat,
      List.nil_append, List.append_eq]
    rw [ih fuel tail]

/-- Claim C1: for every event whose handler enqueues N follow-up events
(each of which completes with no further follow-ups), one call to `process`
yields exactly N+1 StateUpdates, in handler-invocation order, and calls
`StateManager.set_state` exactly once, after the full chain has been drained
— the trace is the N+1 yields followed by the single set_state — and the
persisted state is the final state `sfin` of the whole chain. -/
theorem C1_chain_updates_single_persist
    (app : AppModel) (fuel : Nat) (event : Event) (sid : String)
    (headers : List (String × String)) (client_ip : String)
    (mgr : StateManager) (h0 : Handler) (s1 sfin : State)
    (u0 u0' : StateUpdate) (us : List StateUpdate)
    (hpre : preprocess app.middleware
        (processState app event sid headers client_ip mgr)
        (mergedEvent app event sid headers client_ip) = Except.ok none)
    (hh : app.handlers event.name = some h0)
    (hrun : h0 (processState app event sid headers client_ip mgr)
        event.payload = Except.ok (s1, u0))
    (hpost : postprocess app.middleware s1
        (mergedEvent app event sid headers client_ip) u0 = Except.ok u0')
    (hchain : FlatChain app (mergedEvent app event sid headers client_ip)
        s1 u0.events us sfin) :
    (process app (u0.events.length + fuel + 1) event sid headers client_ip
        mgr).trace =
      (u0' :: us).map TraceItem.yielded ++ [TraceItem.set_state event.token] ∧
    (process app (u0.events.length + fuel + 1) event sid headers client_ip
        mgr).outcome = Outcome.ok ∧
    us.length = u0.events.length ∧
    (process app (u0.events.length + fuel + 1) event sid headers client_ip
        mgr).mgr =
      ((StateManager.get_state app.defaults mgr event.token).2).set_state
        event.token sfin := by
  have hloop : processLoop app (u0.events.length + fuel + 1)
      (processState app event sid headers client_ip mgr)
      [mergedEvent app event sid headers client_ip]
      (mergedEvent app event sid headers client_ip) =
      (u0' :: us, sfin, Outcome.ok) := by
    have hname : (mergedEvent app event sid headers client_ip).name =
        event.name := rfl
    have hpay : (mergedEvent app event sid headers client_ip).payload =
        event.payload := rfl
    simp only [processLoop, hname, hpay, hh, hrun, hpost, List.append_nil]
    have := processLoop_flat hchain fuel []
    rw [List.append_nil] at this
    rw [this]
    simp [processLoop]
  refine ⟨?_, ?_, hchain.length_eq, ?_⟩ <;>
    · unfold process
      rw [hpre, hloop]

/-- Follow-up event a, used by the concrete witness app. -/
def wEventA : Event := ⟨"tok", "a", [], []⟩

/-- Follow-up event b, used by the concrete witness app. -/
def wEventB : Event := ⟨"tok", "b", [], []⟩

/-- Update returned by the root handler: delta plus two follow-up events. -/
def wU0 : StateUpdate := ⟨[("step", .int 0)], [wEventA, wEventB], false⟩

/-- Update returned by the first follow-up handler. -/
def wU1 : StateUpdate := ⟨[("step", .int 1)], [], false⟩

/-- Update returned by the second follow-up handler. -/
def wU2 : StateUpdate := ⟨[("step", .int 2)], [], true⟩

/-- Root handler of the witness app: enqueues two follow-up events. -/
def wGo : Handler := fun s _ => .ok (s, wU0)

/-- First follow-up handler of the witness app. -/
def wA : Handler := fun s _ => .ok (s, wU1)

/-- Second follow-up handler of the witness app. -/
def wB : Handler := fun s _ => .ok (s, wU2)

/-- Handler registry of the witness app. -/
def wHandlers : String → Option Handler := fun n =>
  match n with
  | "go" => some wGo
  | "a" => some wA
  | "b" => some wB
  | _ => none

/-- Default state of the witness app. -/
def wDefault : State := ⟨[], [], []⟩

/-- A concrete app with no middleware and a three-handler chain. -/
def wApp : AppModel :=
  ⟨[], wHandlers, wDefault, [], fun _ => [], fun _ => none⟩

/-- The externally submitted event of the witness run. -/
def wEvent : Event := ⟨"tok", "go", [], []⟩

/-- The state the witness run hands to the handlers. -/
def wS1 : State := processState wApp wEvent "s" [] "ip" ⟨[]⟩

theorem C1_witness :
    (process wApp 3 wEvent "s" [] "ip" ⟨[]⟩).trace =
      (wU0 :: [wU1, wU2]).map TraceItem.yielded ++
        [TraceItem.set_state "tok"] ∧
    (process wApp 3 wEvent "s" [] "ip" ⟨[]⟩).outcome = Outcome.ok ∧
    ([wU1, wU2] : List StateUpdate).length = wU0.events.length ∧
    (process wApp 3 wEvent "s" [] "ip" ⟨[]⟩).mgr =
      ((StateManager.get_state wApp.defaults ⟨[]⟩ "tok").2).set_state
        "tok" wS1 :=
  C1_chain_updates_single_persist wApp 0 wEvent "s" [] "ip" ⟨[]⟩ wGo wS1 wS1
    wU0 wU0 [wU1, wU2] rfl rfl rfl rfl
    (FlatChain.cons wS1 wEventA [wEventB] wA wS1 wU1 wU1 [wU2] wS1
      rfl rfl rfl rfl
      (FlatChain.cons wS1 wEventB [] wB wS1 wU2 wU2 [] wS1
        rfl rfl rfl rfl (FlatChain.nil wS1)))

/-- Claim C2: pre-hooks run in registration order; the first pre-hook that
returns a non-None update short-circuits the remaining pre-hooks (the list
`ms2` after it is arbitrary and unused); at the `process` level such an
update is yielded as the sole result, with no further transformation (the
trace is exactly that yield followed by the single persist); and when every
pre-hook returns None, `preprocess` returns None and `process` dispatches
the event handler chain (its yields are exactly the drained chain's
updates). -/
theorem C2_pre_middleware_short_circuit :
    (∀ (ms1 : List Middleware) (m : Middleware) (ms2 : List Middleware)
       (s : State) (e : Event) (u : StateUpdate),
       (∀ m' ∈ ms1, m'.pre s e = Except.ok none) →
       m.pre s e = Except.ok (some u) →
       preprocess (ms1 ++ m :: ms2) s e = Except.ok (some u)) ∧
    (∀ (ms : List Middleware) (s : State) (e : Event),
       (∀ m ∈ ms, m.pre s e = Except.ok none) →
       preprocess ms s e = Except.ok none) ∧
    (∀ (app : AppModel) (fuel : Nat) (event : Event) (sid : String)
       (headers : List (String × String)) (client_ip : String)
       (mgr : StateManager) (u : StateUpdate),
       preprocess app.middleware
           (processState app event sid headers client_ip mgr)
           (mergedEvent app event sid headers client_ip) =
         Except.ok (some u) →
       (process app fuel event sid headers client_ip mgr).trace =
         [TraceItem.yielded u, TraceItem.set_state event.token] ∧
       (process app fuel event sid headers client_ip mgr).outcome =
         Outcome.ok) ∧
    (∀ (app : AppModel) (fuel : Nat) (event : Event) (sid : String)
       (headers : List (String × String)) (client_ip : String)
       (mgr : StateManager),
       preprocess app.middleware
           (processState app event sid headers client_ip mgr)
           (mergedEvent app event sid headers client_ip) = Except.ok none →
       (process app fuel event sid headers client_ip mgr).trace =
         (processLoop app fuel
             (processState app event sid headers client_ip mgr)
             [mergedEvent app event sid headers client_ip]
             (mergedEvent app event sid headers client_ip)).1.map
           TraceItem.yielded ++
         (match (processLoop app fuel
             (processState app event sid headers client_ip mgr)
             [mergedEvent app event sid headers client_ip]
             (mergedEvent app event sid headers client_ip)).2.2 with
          | Outcome.ok => [TraceItem.set_state event.token]
          | _ => [])) := by
  refine ⟨?_, ?_, ?_, ?_⟩
  · intro ms1 m ms2 s e u h1 h2
    induction ms1 with
    | nil => simp [preprocess, h2]
    | cons m' ms ih =>
      have hm' : m'.pre s e = Except.ok none := h1 m' (by simp)
      simp only [List.cons_append, preprocess, hm']
      exact ih (fun x hx => h1 x (by simp [hx]))
  · intro ms s e h1
    induction ms with
    | nil => rfl
    | cons m' ms ih =>
      have hm' : m'.pre s e = Except.ok none := h1 m' (by simp)
      simp only [preprocess, hm']
      exact ih (fun x hx => h1 x (by simp [hx]))
  · intro app fuel event sid headers client_ip mgr u hpre
    unfold process
    rw [hpre]
    exact ⟨rfl, rfl⟩
  · intro app fuel event sid headers client_ip mgr hpre
    unfold process
    rw [hpre]
    rcases hL : processLoop app fuel
        (processState app event sid headers client_ip mgr)
        [mergedEvent app event sid headers client_ip]
        (mergedEvent app event sid headers client_ip) with ⟨us, sfin, out⟩
    cases out <;> simp

/-- Middleware whose hooks always return None. -/
def mwNone : Middleware := ⟨fun _ _ => .ok none, fun _ _ _ => .ok none⟩

/-- Middleware whose pre-hook short-circuits with a fixed update. -/
def mwShort : Middleware := ⟨fun _ _ => .ok (some wU1), fun _ _ _ => .ok none⟩

/-- Middleware whose hooks raise; placed after the short-circuiting one to
exhibit that it is never invoked. -/
def mwBoom : Middleware :=
  ⟨fun _ _ => .error "boom", fun _ _ _ => .error "boom"⟩

/-- Witness app for the pre-middleware short-circuit. -/
def c2App : AppModel :=
  ⟨[mwNone, mwShort, mwBoom], wHandlers, wDefault, [], fun _ => [],
    fun _ => none⟩

theorem C2_witness :
    preprocess ([mwNone] ++ mwShort :: [mwBoom]) wDefault wEvent =
      Except.ok (some wU1) ∧
    (process c2App 0 wEvent "s" [] "ip" ⟨[]⟩).trace =
      [TraceItem.yielded wU1, TraceItem.set_state "tok"] ∧
    (process c2App 0 wEvent "s" [] "ip" ⟨[]⟩).outcome = Outcome.ok := by
  refine ⟨?_, ?_, ?_⟩
  · refine C2_pre_middleware_short_circuit.1 [mwNone] mwShort [mwBoom]
      wDefault wEvent wU1 ?_ rfl
    intro m' hm'
    simp only [List.mem_singleton] at hm'
    subst hm'
    rfl
  · exact (C2_pre_middleware_short_circuit.2.2.1 c2App 0 wEvent "s" [] "ip"
      ⟨[]⟩ wU1 rfl).1
  · exact (C2_pre_middleware_short_circuit.2.2.1 c2App 0 wEvent "s" [] "ip"
      ⟨[]⟩ wU1 rfl).2

/-- Claim C3: for every update yielded by handler dispatch (the original and
every chained one — each yield of `processLoop` goes through `postprocess`),
the post-hooks run in registration order and the first post-hook returning
non-None replaces the update, with the later hooks (`ms2`, arbitrary) not
applied to it; when every post-hook returns None the update is returned
unchanged. -/
theorem C3_post_middleware_first_wins :
    (∀ (ms1 : List Middleware) (m : Middleware) (ms2 : List Middleware)
       (s : State) (e : Event) (u v : StateUpdate),
       (∀ m' ∈ ms1, m'.post s e u = Except.ok none) →
       m.post s e u = Except.ok (some v) →
       postprocess (ms1 ++ m :: ms2) s e u = Except.ok v) ∧
    (∀ (ms : List Middleware) (s : State) (e : Event) (u : StateUpdate),
       (∀ m ∈ ms, m.post s e u = Except.ok none) →
       postprocess ms s e u = Except.ok u) ∧
    (∀ (app : AppModel) (fuel : Nat) (s : State) (e orig : Event)
       (rest : List Event) (h : Handler) (s' : State) (u u' : StateUpdate),
       app.handlers e.name = some h →
       h s e.payload = Except.ok (s', u) →
       postprocess app.middleware s' orig u = Except.ok u' →
       (processLoop app (fuel + 1) s (e :: rest) orig).1 =
         u' :: (processLoop app fuel s' (u.events ++ rest) orig).1) := by
  refine ⟨?_, ?_, ?_⟩
  · intro ms1 m ms2 s e u v h1 h2
    induction ms1 with
    | nil => simp [postprocess, h2]
    | cons m' ms ih =>
      have hm' : m'.post s e u = Except.ok none := h1 m' (by simp)
      simp only [List.cons_append, postprocess, hm']
      exact ih (fun x hx => h1 x (by simp [hx]))
  · intro ms s e u h1
    induction ms with
    | nil => rfl
    | cons m' ms ih =>
      have hm' : m'.post s e u = Except.ok none := h1 m' (by simp)
      simp only [postprocess, hm']
      exact ih (fun x hx => h1 x (by simp [hx]))
  · intro app fuel s e orig rest h s' u u' hh hrun hpost
    simp only [processLoop, hh, hrun, hpost]

/-- Middleware whose post-hook replaces every update with `wU2`. -/
def mwPost : Middleware := ⟨fun _ _ => .ok none, fun _ _ _ => .ok (some wU2)⟩

theorem C3_witness :
    postprocess ([mwNone] ++ mwPost :: [mwBoom]) wDefault wEvent wU1 =
      Except.ok wU2 ∧
    postprocess [mwNone] wDefault wEvent wU1 = Except.ok wU1 ∧
    (processLoop wApp 1 wDefault [wEventA] wEvent).1 =
      wU1 :: (processLoop wApp 0 wDefault ([] ++ []) wEvent).1 := by
  refine ⟨?_, ?_, ?_⟩
  · refine C3_post_middleware_first_wins.1 [mwNone] mwPost [mwBoom]
      wDefault wEvent wU1 wU2 ?_ rfl
    intro m' hm'
    simp only [List.mem_singleton] at hm'
    subst hm'
    rfl
  · refine C3_post_middleware_first_wins.2.1 [mwNone] wDefault wEvent wU1 ?_
    intro m' hm'
    simp only [List.mem_singleton] at hm'
    subst hm'
    rfl
  · exact C3_post_middleware_first_wins.2.2 wApp 0 wDefault wEventA wEvent
      [] wA wDefault wU1 wU1 rfl rfl rfl

/-- Claim C4: in the metadata-merge step of `process`, the state's
router_data is re-assigned only when the freshly built router metadata
differs from the state's current router_data: on equality the merge leaves
the state entirely unchanged, so no computed field is dirtied; on
difference it stores the merged metadata, dirties exactly the
router-dependent computed fields not already dirty, and leaves the plain
vars alone. -/
theorem C4_router_merge_noop_on_equal
    (app : AppModel) (state : State) (event : Event) (sid : String)
    (headers : List (String × String)) (client_ip : String) :
    (dictBEq state.router_data
        (buildRouterData app event sid headers client_ip) = true →
      mergedState app state
        (buildRouterData app event sid headers client_ip) = state) ∧
    (dictBEq state.router_data
        (buildRouterData app event sid headers client_ip) = false →
      (mergedState app state
          (buildRouterData app event sid headers client_ip)).router_data =
        buildRouterData app event sid headers client_ip ∧
      (mergedState app state
          (buildRouterData app event sid headers client_ip)).dirty_computed =
        state.dirty_computed ++
          app.routerDeps.filter
            (fun d => ¬ state.dirty_computed.contains d) ∧
      (mergedState app state
          (buildRouterData app event sid headers client_ip)).vars =
        state.vars) := by
  constructor
  · intro hEq
    simp [mergedState, hEq]
  · intro hNe
    simp [mergedState, hNe, assignRouterData]

/-- Witness app for the metadata merge, with one router-dependent computed
field. -/
def c4App : AppModel :=
  ⟨[], wHandlers, wDefault, ["comp"], fun _ => [], fun _ => none⟩

/-- Witness event for the metadata merge. -/
def c4Event : Event := ⟨"tok", "go", [], []⟩

/-- A state already holding exactly the merged router metadata. -/
def c4State : State :=
  ⟨buildRouterData c4App c4Event "sid0" [] "ip0", [], []⟩

theorem C4_witness :
    mergedState c4App c4State
      (buildRouterData c4App c4Event "sid0" [] "ip0") = c4State ∧
    (mergedState c4App wDefault
        (buildRouterData c4App c4Event "sid0" [] "ip0")).router_data =
      buildRouterData c4App c4Event "sid0" [] "ip0" := by
  constructor
  · exact (C4_router_merge_noop_on_equal c4App c4State c4Event "sid0" []
      "ip0").1 (by decide)
  · exact ((C4_router_merge_noop_on_equal c4App wDefault c4Event "sid0" []
      "ip0").2 (by decide)).1

/-- Claim C5, counterexample: `process` does not leave the event unchanged —
`router_data.update(...)` in `process` mutates `event.router_data` in
place, so after processing a concrete event whose router_data was empty the
event carries the merged metadata keys. -/
theorem C5_counterexample :
    (process c4App 0 c4Event "sid0" [] "ip0" ⟨[]⟩).event ≠ c4Event := by
  decide

/-- Claim C5 (amended): processing an event through `process` leaves its
token, name and payload unchanged, but its router_data is mutated in place
by the metadata merge: afterwards it is the original router_data updated
with the query, token, session-id, headers and client-ip keys. -/
theorem C5_event_mutation_after_process
    (app : AppModel) (fuel : Nat) (event : Event) (sid : String)
    (headers : List (String × String)) (client_ip : String)
    (mgr : StateManager) :
    (process app fuel event sid headers client_ip mgr).event.token =
      event.token ∧
    (process app fuel event sid headers client_ip mgr).event.name =
      event.name ∧
    (process app fuel event sid headers client_ip mgr).event.payload =
      event.payload ∧
    (process app fuel event sid headers client_ip mgr).event.router_data =
      buildRouterData app event sid headers client_ip := by
  have h : (process app fuel event sid headers client_ip mgr).event =
      mergedEvent app event sid headers client_ip := by
    unfold process
    split <;> first
      | rfl
      | (split <;> rfl)
  refine ⟨?_, ?_, ?_, ?_⟩ <;> rw [h] <;> rfl

theorem find?_map_replace (l : List (String × State)) (t : String)
    (s : State) (h : l.any (fun p => p.1 = t) = true) :
    (l.map (fun p => if p.1 = t then (t, s) else p)).find?
      (fun q => q.1 = t) = some (t, s) := by
  induction l with
  | nil => simp at h
  | cons p l ih =>
    by_cases hp : p.1 = t
    · simp [hp]
    · have h' : l.any (fun p => p.1 = t) = true := by
        simp only [List.any_cons, Bool.or_eq_true, decide_eq_true_eq] at h
        rcases h with h | h
        · exact absurd h hp
        · exact h
      simp [hp, ih h']

theorem find?_map_replace_other (l : List (String × State)) (t t' : String)
    (s : State) (hne : t ≠ t') :
    (l.map (fun p => if p.1 = t then (t, s) else p)).find?
      (fun q => q.1 = t') = l.find? (fun q => q.1 = t') := by
  induction l with
  | nil => rfl
  | cons p l ih =>
    by_cases hp : p.1 = t
    · have hp' : ¬ ((t, s).1 = t') := fun hc => hne hc
      have hpp : ¬ (p.1 = t') := fun hc => hne (hp ▸ hc)
      rw [List.map_cons, if_pos hp, List.find?_cons_of_neg _ (by simpa using hp'),
        List.find?_cons_of_neg _ (by simpa using hpp), ih]
    · rw [List.map_cons, if_neg hp]
      by_cases hq : p.1 = t'
      · rw [List.find?_cons_of_pos _ (by simpa using hq),
          List.find?_cons_of_pos _ (by simpa using hq)]
      · rw [List.find?_cons_of_neg _ (by simpa using hq),
          List.find?_cons_of_neg _ (by simpa using hq), ih]

theorem set_state_find_self (mgr : StateManager) (t : String) (s : State) :
    (mgr.set_state t s).states.find? (fun q => q.1 = t) = some (t, s) := by
  rcases mgr with ⟨l⟩
  show (if l.any (fun p => p.1 = t) then
      l.map (fun p => if p.1 = t then (t, s) else p)
    else l ++ [(t, s)]).find? (fun q => q.1 = t) = some (t, s)
  by_cases h : l.any (fun p => p.1 = t)
  · rw [if_pos h]
    exact find?_map_replace l t s h
  · rw [if_neg h, List.find?_append]
    have hnone : l.find? (fun q => q.1 = t) = none := by
      rw [List.find?_eq_none]
      intro x hx hxt
      exact h (List.any_eq_true.mpr ⟨x, hx, hxt⟩)
    simp [hnone]

theorem set_state_find_other (mgr : StateManager) (t t' : String)
    (s : State) (hne : t ≠ t') :
    (mgr.set_state t s).states.find? (fun q => q.1 = t') =
      mgr.states.find? (fun q => q.1 = t') := by
  rcases mgr with ⟨l⟩
  show (if l.any (fun p => p.1 = t) then
      l.map (fun p => if p.1 = t then (t, s) else p)
    else l ++ [(t, s)]).find? (fun q => q.1 = t') =
      l.find? (fun q => q.1 = t')
  by_cases h : l.any (fun p => p.1 = t)
  · rw [if_pos h]
    exact find?_map_replace_other l t t' s hne
  · rw [if_neg h, List.find?_append]
    have : ([(t, s)].find? (fun q => q.1 = t')) = none := by
      simp [hne]
    simp [this]

/-- Claim C6: `get_state` returns the existing session root when one is
registered under the token (leaving the store unchanged) and otherwise
returns the default state and registers it (so it never yields nothing);
`set_state` stores the root so a subsequent `get_state` with the same token
returns it, repeated `set_state` calls with the same token are safe (the
last write wins), and `get_state`/`set_state` under one token never affect
the binding of a different token. -/
theorem C6_state_manager_contract :
    (∀ (default : State) (mgr : StateManager) (token : String)
       (p : String × State),
       mgr.states.find? (fun q => q.1 = token) = some p →
       StateManager.get_state default mgr token = (p.2, mgr)) ∧
    (∀ (default : State) (mgr : StateManager) (token : String),
       mgr.states.find? (fun q => q.1 = token) = none →
       StateManager.get_state default mgr token =
         (default, ⟨mgr.states ++ [(token, default)]⟩) ∧
       (StateManager.get_state default mgr token).2.states.find?
           (fun q => q.1 = token) = some (token, default)) ∧
    (∀ (default : State) (mgr : StateManager) (token : String) (s : State),
       StateManager.get_state default (mgr.set_state token s) token =
         (s, mgr.set_state token s)) ∧
    (∀ (default : State) (mgr : StateManager) (token : String)
       (s s' : State),
       StateManager.get_state default
           ((mgr.set_state token s).set_state token s') token =
         (s', (mgr.set_state token s).set_state token s')) ∧
    (∀ (mgr : StateManager) (t t' : String) (s : State), t ≠ t' →
       (mgr.set_state t s).states.find? (fun q => q.1 = t') =
         mgr.states.find? (fun q => q.1 = t')) ∧
    (∀ (default : State) (mgr : StateManager) (t t' : String), t ≠ t' →
       (StateManager.get_state default mgr t).2.states.find?
           (fun q => q.1 = t') =
         mgr.states.find? (fun q => q.1 = t')) := by
  have hself : ∀ (default : State) (mgr : StateManager) (token : String)
      (s : State),
      StateManager.get_state default (mgr.set_state token s) token =
        (s, mgr.set_state token s) := by
    intro default mgr token s
    unfold StateManager.get_state
    rw [set_state_find_self]
  refine ⟨?_, ?_, hself, ?_, ?_, ?_⟩
  · intro default mgr token p hfind
    unfold StateManager.get_state
    rw [hfind]
  · intro default mgr token hfind
    constructor
    · unfold StateManager.get_state
      rw [hfind]
    · unfold StateManager.get_state
      rw [hfind, List.find?_append, hfind]
      simp
  · intro default mgr token s s'
    exact hself default (mgr.set_state token s) token s'
  · intro mgr t t' s hne
    exact set_state_find_other mgr t t' s hne
  · intro default mgr t t' hne
    unfold StateManager.get_state
    rcases hfind : mgr.states.find? (fun q => q.1 = t) with _ | p
    · rw [hfind]
      dsimp only
      rw [List.find?_append]
      have : ([(t, default)].find? (fun q => q.1 = t')) = none := by
        simp [hne]
      simp [this]
    · rw [hfind]

theorem C6_witness :
    StateManager.get_state wDefault
        ((StateManager.mk []).set_state "t1" c4State) "t1" =
      (c4State, (StateManager.mk []).set_state "t1" c4State) ∧
    ((StateManager.mk [("t1", c4State)]).set_state "t1" wDefault).states.find?
        (fun q => q.1 = "t2") =
      (StateManager.mk [("t1", c4State)]).states.find?
        (fun q => q.1 = "t2") ∧
    StateManager.get_state wDefault (StateManager.mk []) "t1" =
      (wDefault, ⟨[("t1", wDefault)]⟩) := by
  refine ⟨?_, ?_, ?_⟩
  · exact C6_state_manager_contract.2.2.1 wDefault ⟨[]⟩ "t1" c4State
  · exact C6_state_manager_contract.2.2.2.2.1 ⟨[("t1", c4State)]⟩ "t1" "t2"
      wDefault (by decide)
  · exact (C6_state_manager_contract.2.1 wDefault ⟨[]⟩ "t1" rfl).1

/-- Claim C7: for a non-empty file sequence whose first filename has at
least two colon-separated segments, the upload adapter parses the token and
the dot-qualified handler path from the first two segments, strips every
file's name (including the first) to its final colon-separated segment, and
synthesizes an Event with the parsed token, the parsed handler path as its
name, and a payload binding the handler's file-sequence parameter to the
renamed files. -/
theorem C7_upload_parse_and_strip
    (app : AppModel) (fuel : Nat) (f0 : UploadFile) (fs : List UploadFile)
    (mgr : StateManager) (token handler : String) (rest : List String)
    (param : String)
    (hsplit : splitOnChar ':' f0.filename = token :: handler :: rest)
    (hparam : app.handlerUploadParam handler = some param) :
    (upload_file app fuel (f0 :: fs) mgr).event =
      some ⟨token, handler,
        [(param, Value.files ((f0 :: fs).map
          (fun f => ⟨(splitOnChar ':' f.filename).getLast?.getD f.filename⟩)))],
        []⟩ := by
  unfold upload_file
  dsimp only
  rw [hsplit]
  dsimp only
  rw [hparam]
  dsimp only
  split <;> rfl

/-- Upload-parameter registry of the upload witness app: only the handler
path `h.handler` has a parameter of uploaded-file-list type. -/
def upParam : String → Option String := fun h =>
  match h with
  | "h.handler" => some "files"
  | _ => none

/-- Witness app for the upload path. -/
def up7App : AppModel :=
  ⟨[], wHandlers, wDefault, [], fun _ => [], upParam⟩

/-- First uploaded file of the witness, named with the colon convention. -/
def upFile1 : UploadFile := ⟨"tok:h.handler:True:image1.jpg"⟩

/-- Second uploaded file of the witness. -/
def upFile2 : UploadFile := ⟨"tok:h.handler:True:image2.jpg"⟩

theorem C7_witness :
    (upload_file up7App 1 [upFile1, upFile2] ⟨[]⟩).event =
      some ⟨"tok", "h.handler",
        [("files", Value.files [⟨"image1.jpg"⟩, ⟨"image2.jpg"⟩])], []⟩ := by
  have h := C7_upload_parse_and_strip up7App 1 upFile1 [upFile2] ⟨[]⟩ "tok"
    "h.handler" ["True", "image1.jpg"] "files" (by decide) rfl
  exact h.trans (by decide)

/-- Claim C8: when the resolved upload handler has no parameter of
uploaded-file-list type, the upload adapter fails with an error whose
message names the handler path, and the upload performs no state mutation:
the result's trace is empty (no update delivered, `set_state` never
called), no event is synthesized, and the store is only touched by the
`get_state` fetch. -/
theorem C8_upload_missing_param
    (app : AppModel) (fuel : Nat) (f0 : UploadFile) (fs : List UploadFile)
    (mgr : StateManager) (token handler : String) (rest : List String)
    (hsplit : splitOnChar ':' f0.filename = token :: handler :: rest)
    (hparam : app.handlerUploadParam handler = none) :
    upload_file app fuel (f0 :: fs) mgr =
      ⟨[], .raised (uploadParamError handler),
        (StateManager.get_state app.defaults mgr token).2, none⟩ ∧
    uploadParamError handler =
      "`" ++ handler ++
        "` handler should have a parameter annotated as List[rx.UploadFile]"
    := by
  constructor
  · unfold upload_file
    dsimp only
    rw [hsplit]
    dsimp only
    rw [hparam]
  · rfl

/-- Witness app for the missing-upload-parameter failure: no handler has an
uploaded-file-list parameter. -/
def up8App : AppModel :=
  ⟨[], wHandlers, wDefault, [], fun _ => [], fun _ => none⟩

/-- Uploaded file addressed at a handler with no file-list parameter. -/
def upFile3 : UploadFile :=
  ⟨"token:file_upload_state.handle_upload2:True:image1.jpg"⟩

theorem C8_witness :
    upload_file up8App 1 [upFile3] ⟨[]⟩ =
      ⟨[], .raised (uploadParamError "file_upload_state.handle_upload2"),
        (StateManager.get_state up8App.defaults ⟨[]⟩ "token").2, none⟩ ∧
    uploadParamError "file_upload_state.handle_upload2" =
      "`" ++ "file_upload_state.handle_upload2" ++
        "` handler should have a parameter annotated as List[rx.UploadFile]"
    :=
  C8_upload_missing_param up8App 1 upFile3 [] ⟨[]⟩ "token"
    "file_upload_state.handle_upload2" ["True", "image1.jpg"]
    (by decide) rfl

/-- Claim C9: exceptions are propagated, not caught, and nothing is retried.
If a handler raises after a prefix of the chain has already yielded its
updates, the drain returns exactly those updates with a `raised` outcome
(the chain stops at the failure); a raising pre-middleware makes `process`
raise with no update and no persist; and when the drain ends `raised`,
`process` keeps the already-yielded updates, reports the same exception, and
never calls `set_state`. -/
theorem C9_exceptions_propagate :
    (∀ (app : AppModel) (orig : Event) (s : State) (es : List Event)
       (us : List StateUpdate) (s1 : State),
       FlatChain app orig s es us s1 →
       ∀ (e : Event) (rest : List Event) (h : Handler) (m : String)
         (fuel : Nat),
         app.handlers e.name = some h →
         h s1 e.payload = Except.error m →
         processLoop app (es.length + (fuel + 1)) s (es ++ e :: rest) orig =
           (us, s1, Outcome.raised m)) ∧
    (∀ (app : AppModel) (fuel : Nat) (event : Event) (sid : String)
       (headers : List (String × String)) (client_ip : String)
       (mgr : StateManager) (m : String),
       preprocess app.middleware
           (processState app event sid headers client_ip mgr)
           (mergedEvent app event sid headers client_ip) =
         Except.error m →
       process app fuel event sid headers client_ip mgr =
         ⟨[], .raised m, (StateManager.get_state app.defaults mgr
             event.token).2,
           mergedEvent app event sid headers client_ip⟩) ∧
    (∀ (app : AppModel) (fuel : Nat) (event : Event) (sid : String)
       (headers : List (String × String)) (client_ip : String)
       (mgr : StateManager) (m : String),
       preprocess app.middleware
           (processState app event sid headers client_ip mgr)
           (mergedEvent app event sid headers client_ip) = Except.ok none →
       (processLoop app fuel
           (processState app event sid headers client_ip mgr)
           [mergedEvent app event sid headers client_ip]
           (mergedEvent app event sid headers client_ip)).2.2 =
         Outcome.raised m →
       (process app fuel event sid headers client_ip mgr).trace =
         (processLoop app fuel
             (processState app event sid headers client_ip mgr)
             [mergedEvent app event sid headers client_ip]
             (mergedEvent app event sid headers client_ip)).1.map
           TraceItem.yielded ∧
       (process app fuel event sid headers client_ip mgr).outcome =
         Outcome.raised m ∧
       (process app fuel event sid headers client_ip mgr).mgr =
         (StateManager.get_state app.defaults mgr event.token).2) := by
  refine ⟨?_, ?_, ?_⟩
  · intro app orig s es us s1 hc e rest h m fuel hh herr
    have hstep : processLoop app (fuel + 1) s1 (e :: rest) orig =
        ([], s1, Outcome.raised m) := by
      simp only [processLoop, hh, herr]
    rw [processLoop_flat hc (fuel + 1) (e :: rest), hstep]
    simp
  · intro app fuel event sid headers client_ip mgr m hpre
    unfold process
    rw [hpre]
  · intro app fuel event sid headers client_ip mgr m hpre hL
    unfold process
    rw [hpre]
    rcases hLoop : processLoop app fuel
        (processState app event sid headers client_ip mgr)
        [mergedEvent app event sid headers client_ip]
        (mergedEvent app event sid headers client_ip) with ⟨us, sfin, out⟩
    rw [hLoop] at hL
    simp only at hL
    subst hL
    exact ⟨rfl, rfl, rfl⟩

/-- A handler that always raises. -/
def boomH : Handler := fun _ _ => .error "boom failed"

/-- Handler registry of the failing-chain witness. -/
def c9Handlers : String → Option Handler := fun n =>
  match n with
  | "a" => some wA
  | "boom" => some boomH
  | _ => none

/-- Witness app whose `boom` handler raises. -/
def c9App : AppModel :=
  ⟨[], c9Handlers, wDefault, [], fun _ => [], fun _ => none⟩

/-- The event whose handler raises. -/
def boomEvent : Event := ⟨"tok", "boom", [], []⟩

theorem C9_witness :
    processLoop c9App 2 wDefault ([wEventA] ++ boomEvent :: []) wEvent =
      ([wU1], wDefault, Outcome.raised "boom failed") ∧
    (process c9App 1 boomEvent "s" [] "ip" ⟨[]⟩).trace = [] ∧
    (process c9App 1 boomEvent "s" [] "ip" ⟨[]⟩).outcome =
      Outcome.raised "boom failed" := by
  have h1 := C9_exceptions_propagate.1 c9App wEvent wDefault [wEventA] [wU1]
    wDefault
    (FlatChain.cons wDefault wEventA [] wA wDefault wU1 wU1 [] wDefault
      rfl rfl rfl rfl (FlatChain.nil wDefault))
    boomEvent [] boomH "boom failed" 0 rfl rfl
  have h3 := C9_exceptions_propagate.2.2 c9App 1 boomEvent "s" [] "ip" ⟨[]⟩
    "boom failed" rfl (by decide)
  exact ⟨h1, h3.1.trans (by decide), h3.2.1⟩

/-- Claim C10: `get_load_events` strips leading slashes (prepending a slash
to a route never changes the result), treats the empty route as the index
route, returns the registered on-load handler list for the normalized
route, and returns the empty list when the route has no registered load
events (it is total, so it never raises). -/
theorem C10_get_load_events :
    (∀ (le : List (String × List String)) (route : String),
       get_load_events le ("/" ++ route) = get_load_events le route) ∧
    (∀ (le : List (String × List String)),
       get_load_events le "" = get_load_events le "index") ∧
    (∀ (le : List (String × List String)) (route : String)
       (p : String × List String),
       le.find? (fun q => q.1 =
           (if String.mk (route.data.dropWhile (fun c => c = '/')) = ""
            then INDEX_ROUTE
            else String.mk (route.data.dropWhile (fun c => c = '/')))) =
         some p →
       get_load_events le route = p.2) ∧
    (∀ (le : List (String × List String)) (route : String),
       le.find? (fun q => q.1 =
           (if String.mk (route.data.dropWhile (fun c => c = '/')) = ""
            then INDEX_ROUTE
            else String.mk (route.data.dropWhile (fun c => c = '/')))) =
         none →
       get_load_events le route = []) := by
  refine ⟨?_, ?_, ?_, ?_⟩
  · intro le route
    unfold get_load_events
    have hdata : ("/" ++ route).data.dropWhile (fun c => c = '/') =
        route.data.dropWhile (fun c => c = '/') := by
      have : ("/" ++ route).data = '/' :: route.data := by
        rw [String.data_append]
        rfl
      rw [this]
      simp [List.dropWhile_cons]
    rw [hdata]
  · intro le
    rfl
  · intro le route p hfind
    unfold get_load_events
    rw [hfind]
  · intro le route hfind
    unfold get_load_events
    rw [hfind]

/-- Concrete on-load handler table for the witness. -/
def c10Table : List (String × List String) :=
  [("index", ["onload_index"]), ("about", ["onload_about"])]

theorem C10_witness :
    get_load_events c10Table "/about" = ["onload_about"] ∧
    get_load_events c10Table "/missing" = [] := by
  constructor
  · exact C10_get_load_events.2.2.1 c10Table "/about"
      ("about", ["onload_about"]) (by decide)
  · exact C10_get_load_events.2.2.2 c10Table "/missing" (by decide)

end Reflex
